import Mathlib

/-!
Verification of the barcode localization/decoding pipeline in
`backend/barcode_scanner.py`.

The control flow of the pipeline (variant sweep, ROI filtering/padding,
orchestration) is embedded directly.  The external image primitives it
calls (the pyzbar `decode`, the cv2 `rotate`, `resize`, CLAHE, adaptive
threshold and contour extraction, and the PIL byte-buffer parsing) are opaque
pixel-level routines; they are modelled as fields of the `CV` and
`Vision` bundles, so every theorem is quantified over their behaviour.
-/

namespace BarcodeScanner

/-- Result record of the pipeline: symbology tag, payload text and
bounding rectangle `(x, y, w, h)`.  Embeds the `BarcodeResult`
dataclass of `backend/barcode_scanner.py`. -/
structure BarcodeResult where
  type : String
  data : String
  rect : ℤ × ℤ × ℤ × ℤ
deriving DecidableEq, Repr

/-- Raw symbol as returned by the external pyzbar reader before the
filtering done by the pipeline: `data` is the UTF-8 decoded payload. -/
structure RawSymbol where
  type : String
  data : String
  rect : ℤ × ℤ × ℤ × ℤ
deriving DecidableEq, Repr

/-- Bundle of the opaque image primitives used by the variant engine.
`decode` is `pyzbar.pyzbar.decode`; the three rotations are
`cv2.rotate` with `ROTATE_90_CLOCKWISE`, `ROTATE_180`,
`ROTATE_90_COUNTERCLOCKWISE`; `resize s` is `cv2.resize` with
`fx = fy = s` and `INTER_CUBIC`; `clahe clip grid` is
`cv2.createCLAHE(clipLimit=clip, tileGridSize=grid).apply`;
`adaptive_thresh maxv block c` is `cv2.adaptiveThreshold` with
`ADAPTIVE_THRESH_GAUSSIAN_C`, `THRESH_BINARY`, the given max value,
block size and offset constant. -/
structure CV (Img : Type u) where
  decode : Img → List RawSymbol
  rotate_90_clockwise : Img → Img
  rotate_180 : Img → Img
  rotate_90_counterclockwise : Img → Img
  resize : ℚ → Img → Img
  clahe : ℚ → ℤ × ℤ → Img → Img
  adaptive_thresh : ℤ → ℤ → ℤ → Img → Img

/-- Bounding rectangle `(x, y, w, h)` as returned by
`cv2.boundingRect`. -/
structure Rect where
  x : ℤ
  y : ℤ
  w : ℤ
  h : ℤ
deriving DecidableEq, Repr

/-- External contour: its enclosed area (`cv2.contourArea`, the sort
key of `_find_barcode_like_rois`) and its bounding rectangle. -/
structure Contour where
  area : ℚ
  rect : Rect
deriving DecidableEq, Repr

/-- Candidate region `(x0, y0, x1, y1)` in frame coordinates, as
appended to `rois` in `_find_barcode_like_rois`. -/
structure Roi where
  x0 : ℤ
  y0 : ℤ
  x1 : ℤ
  y1 : ℤ
deriving DecidableEq, Repr

/-- Bundle of the opaque frame-level primitives of the pipeline.
`parse` is `PIL.Image.open` on the byte buffer followed by
`ImageOps.exif_transpose`, `convert("RGB")` and the RGB→BGR
conversion: `none` models the exception raised on a byte buffer that
is not a parseable image container.  `width`/`height` are the frame
dimensions (`gray.shape`).  `gray_full` is `cv2.cvtColor(bgr,
COLOR_BGR2GRAY)` of the whole frame.  `contours` is the opaque
vision front end of `_find_barcode_like_rois` (blur, Sobel gradients,
morphology, Otsu threshold, `findContours`), yielding each external
contour with its area and bounding rectangle.  `gray_crop` is
`bgr[y0:y1, x0:x1]` followed by the grayscale conversion. -/
structure Vision (Img : Type u) (Fr : Type v) (B : Type w) where
  parse : B → Option Fr
  width : Fr → ℤ
  height : Fr → ℤ
  gray_full : Fr → Img
  contours : Fr → List Contour
  gray_crop : Fr → Roi → Img

variable {Img : Type u} {Fr : Type v} {B : Type w}

/-- Embeds the Python `str.strip()` used on each decoded payload:
remove leading and trailing whitespace.  Written by structural
recursion over the character list so that it evaluates on concrete
strings. -/
def strip (s : String) : String :=
  ⟨((s.data.dropWhile Char.isWhitespace).reverse.dropWhile
      Char.isWhitespace).reverse⟩

/-- Embeds `_decode_pyzbar`: run the reader, strip each payload, keep
only symbols whose stripped payload `s` is non-empty (`if s:` in the
source), and record the stripped payload in the result. -/
def decode_pyzbar (cv : CV Img) (img : Img) : List BarcodeResult :=
  (cv.decode img).filterMap fun o =>
    if strip o.data ≠ "" then some ⟨o.type, strip o.data, o.rect⟩ else none

/-- Loop with early return on the first non-empty result: the shape of
each of the nested loops of `_try_decode_with_rotations` and of the
ROI loop of `decode_barcodes_from_bytes`. -/
def first_hit (f : α → List β) : List α → List β
  | [] => []
  | v :: vs =>
    let res := f v
    if res.isEmpty then first_hit f vs else res

/-- Scale factors of the middle loop of `_try_decode_with_rotations`:
`[1.0, 1.5, 2.0, 3.0]`. -/
def scale_list : List ℚ := [1, 3/2, 2, 3]

/-- Embeds `cv2.resize(g, None, fx=s, fy=s, interpolation=INTER_CUBIC)
if s != 1.0 else g`. -/
def scaled (cv : CV Img) (s : ℚ) (g : Img) : Img :=
  if s ≠ 1 then cv.resize s g else g

/-- Embeds the `variants` list built for one scaled image `gg`: raw,
CLAHE with clip limit 2.0 and tile grid 8×8, adaptive Gaussian
threshold with max value 255, block size 31 and offset 2. -/
def contrast_variants (cv : CV Img) (gg : Img) : List Img :=
  [gg, cv.clahe 2 (8, 8) gg, cv.adaptive_thresh 255 31 2 gg]

/-- Embeds the `imgs` list of `_try_decode_with_rotations`: the input
and its 90° clockwise, 180°, and 90° counterclockwise rotations. -/
def rotation_imgs (cv : CV Img) (g : Img) : List Img :=
  [g, cv.rotate_90_clockwise g, cv.rotate_180 g,
    cv.rotate_90_counterclockwise g]

/-- Embeds `_try_decode_with_rotations`: triple nested loop (rotation
outer, scale middle, contrast variant inner), returning from the whole
function as soon as one `_decode_pyzbar` call is non-empty, and `[]`
when every variant is exhausted. -/
def try_decode_with_rotations (cv : CV Img) (g : Img) : List BarcodeResult :=
  first_hit
    (fun r =>
      first_hit
        (fun s =>
          first_hit (decode_pyzbar cv) (contrast_variants cv (scaled cv s r)))
        scale_list)
    (rotation_imgs cv g)

/-- Padding constant `pad = 12` of `_find_barcode_like_rois`. -/
def pad : ℤ := 12

/-- Embeds lines 75–78 of `_find_barcode_like_rois`: pad the bounding
rectangle by 12 px on each side and clamp to the frame bounds. -/
def roi_of_rect (W H : ℤ) (r : Rect) : Roi :=
  ⟨max 0 (r.x - pad), max 0 (r.y - pad),
    min W (r.x + r.w + pad), min H (r.y + r.h + pad)⟩

/-- Descending-area ordering used by
`sorted(cnts, key=cv2.contourArea, reverse=True)`. -/
def area_desc (a b : Contour) : Prop := b.area ≤ a.area

instance : DecidableRel area_desc :=
  fun a b => inferInstanceAs (Decidable (b.area ≤ a.area))

instance : IsTotal Contour area_desc :=
  ⟨fun a b => le_total b.area a.area⟩

instance : IsTrans Contour area_desc :=
  ⟨fun _ _ _ hab hbc => le_trans hbc hab⟩

/-- Embeds `_find_barcode_like_rois` from the contour list onward:
sort contours by area descending (a stable sort, like the Python
`sorted` with `reverse=True`, which determines the output uniquely),
take the top 8, skip any whose bounding rectangle has
`w < 80 or h < 30`, and pad/clamp the rest. -/
def find_barcode_like_rois (W H : ℤ) (cnts : List Contour) : List Roi :=
  (((List.insertionSort area_desc cnts).take 8).filter
      (fun c => decide (¬ (c.rect.w < 80 ∨ c.rect.h < 30)))).map
    (fun c => roi_of_rect W H c.rect)

/-- The contours that survive the top-8 cut and the minimum-size
filter, in the order `_find_barcode_like_rois` visits them. -/
def retained_contours (cnts : List Contour) : List Contour :=
  ((List.insertionSort area_desc cnts).take 8).filter
    (fun c => decide (¬ (c.rect.w < 80 ∨ c.rect.h < 30)))

/-- Failure of `decode_barcodes_from_bytes`: the byte buffer is not a
parseable image container (PIL raises from `Image.open`; the spec
names this `DecodeError`). -/
inductive DecodeError where
  | unidentified_image
deriving DecidableEq, Repr

/-- Candidate regions of a frame: `_find_barcode_like_rois(bgr)`,
split into its opaque vision front end (`Vision.contours`) and the
embedded filtering. -/
def frame_rois (vz : Vision Img Fr B) (f : Fr) : List Roi :=
  find_barcode_like_rois (vz.width f) (vz.height f) (vz.contours f)

/-- Embeds the ROI loop of `decode_barcodes_from_bytes`: crop each
region to grayscale, run the variant engine, return at the first
non-empty result, `[]` when the regions are exhausted. -/
def try_rois (cv : CV Img) (vz : Vision Img Fr B) (f : Fr) (rs : List Roi) :
    List BarcodeResult :=
  first_hit (fun r => try_decode_with_rotations cv (vz.gray_crop f r)) rs

/-- Embeds `decode_barcodes_from_bytes`: parse the bytes (raising
`DecodeError` on failure), try the full-frame grayscale, and only if
that is empty locate candidate regions and try each in order. -/
def decode_barcodes_from_bytes (cv : CV Img) (vz : Vision Img Fr B) (b : B) :
    Except DecodeError (List BarcodeResult) :=
  match vz.parse b with
  | none => .error .unidentified_image
  | some f =>
    let res := try_decode_with_rotations cv (vz.gray_full f)
    if res.isEmpty then .ok (try_rois cv vz f (frame_rois vz f))
    else .ok res

/-- Flat cross-product of the 48 variant images, in the nested order of
`_try_decode_with_rotations` (rotation outer, scale middle, contrast
variant inner).  This follows the description of the sweep in the spec
and is proved equal to the nested loops of the source. -/
def all_variant_imgs (cv : CV Img) (g : Img) : List Img :=
  (rotation_imgs cv g).flatMap fun r =>
    scale_list.flatMap fun s => contrast_variants cv (scaled cv s r)

/-- Every image handed to the reader over one pipeline invocation, in
call order: the 48 full-frame variants, then the 48 variants of each
candidate region in region order. -/
def pipeline_attempt_imgs (cv : CV Img) (vz : Vision Img Fr B) (f : Fr) :
    List Img :=
  all_variant_imgs cv (vz.gray_full f) ++
    (frame_rois vz f).flatMap fun r => all_variant_imgs cv (vz.gray_crop f r)

/-- Variant-engine result of each candidate region, in region order. -/
def region_results (cv : CV Img) (vz : Vision Img Fr B) (f : Fr) :
    List (List BarcodeResult) :=
  (frame_rois vz f).map fun r => try_decode_with_rotations cv (vz.gray_crop f r)

/-- First non-empty list in a list of lists, `[]` when there is none:
how the spec describes "first non-empty result wins". -/
def first_nonempty (rs : List (List β)) : List β :=
  (rs.find? (fun r => !r.isEmpty)).getD []

/-- Instrumented variant of `first_hit`: same result, together with
the number of invocations of `f` that were made. -/
def first_hit_count (f : α → List β) : List α → List β × ℕ
  | [] => ([], 0)
  | v :: vs =>
    let res := f v
    if res.isEmpty then
      let p := first_hit_count f vs
      (p.1, p.2 + 1)
    else (res, 1)

/-- Failure modes of the stage-checked pipeline model:
`unidentified_image` is the parse failure (the `DecodeError` of the
spec), `empty_crop` models the cv2 error raised when a zero-width or
zero-height crop is handed to `cv2.cvtColor`. -/
inductive PipelineFailure where
  | unidentified_image
  | empty_crop
deriving DecidableEq, Repr

/-- Crop-to-grayscale stage with its failure made explicit: cv2 raises
on an empty source raster, which happens exactly when the region is
degenerate (zero width or height). -/
def gray_crop_checked (vz : Vision Img Fr B) (f : Fr) (r : Roi) :
    Except PipelineFailure Img :=
  if r.x0 < r.x1 ∧ r.y0 < r.y1 then .ok (vz.gray_crop f r)
  else .error .empty_crop

/-- ROI loop of the pipeline with the crop-stage failure propagated
the way an uncaught Python exception would propagate (the source has
no handler around the loop body). -/
def try_rois_checked (cv : CV Img) (vz : Vision Img Fr B) (f : Fr) :
    List Roi → Except PipelineFailure (List BarcodeResult)
  | [] => .ok []
  | r :: rs =>
    match gray_crop_checked vz f r with
    | .error e => .error e
    | .ok g =>
      let res := try_decode_with_rotations cv g
      if res.isEmpty then try_rois_checked cv vz f rs else .ok res

/-- Whole pipeline with the crop-stage failure propagated: an
`empty_crop` result would model the pipeline aborting on a degenerate
crop. -/
def decode_barcodes_checked (cv : CV Img) (vz : Vision Img Fr B) (b : B) :
    Except PipelineFailure (List BarcodeResult) :=
  match vz.parse b with
  | none => .error .unidentified_image
  | some f =>
    let res := try_decode_with_rotations cv (vz.gray_full f)
    if res.isEmpty then try_rois_checked cv vz f (frame_rois vz f)
    else .ok res

/-- Bounding rectangle lying inside a `W × H` frame.  This always
holds for `cv2.boundingRect` of a contour found in the frame. -/
def rect_in_frame (W H : ℤ) (r : Rect) : Prop :=
  0 ≤ r.x ∧ 0 ≤ r.y ∧ r.x + r.w ≤ W ∧ r.y + r.h ≤ H

instance (W H : ℤ) (r : Rect) : Decidable (rect_in_frame W H r) :=
  inferInstanceAs (Decidable (0 ≤ r.x ∧ 0 ≤ r.y ∧ r.x + r.w ≤ W ∧ r.y + r.h ≤ H))

/-- Every contour of the frame has its bounding rectangle inside the
frame. -/
def contours_in_frame (vz : Vision Img Fr B) (f : Fr) : Prop :=
  ∀ c ∈ vz.contours f, rect_in_frame (vz.width f) (vz.height f) c.rect

instance (vz : Vision Img Fr B) (f : Fr) : Decidable (contours_in_frame vz f) :=
  inferInstanceAs (Decidable (∀ c ∈ vz.contours f,
    rect_in_frame (vz.width f) (vz.height f) c.rect))

/-- Concrete image carrier for closed instantiations: the first
component tracks how often the image has been rotated 90° clockwise,
the second marks whether it is the barcode-label crop. -/
abbrev CImg : Type := ZMod 4 × Bool

/-- Concrete symbol returned by the concrete reader below. -/
def sample_symbol : RawSymbol :=
  ⟨"CODE128", "5449000000996", (0, 0, 95, 30)⟩

/-- Concrete primitive bundle: rotations act on the rotation counter,
resize and the contrast treatments leave the image unchanged, and the
reader decodes exactly the unrotated barcode-label crop. -/
def cxCV : CV CImg where
  decode := fun i => if i = ((0 : ZMod 4), true) then [sample_symbol] else []
  rotate_90_clockwise := fun i => (i.1 + 1, i.2)
  rotate_180 := fun i => (i.1 + 2, i.2)
  rotate_90_counterclockwise := fun i => (i.1 + 3, i.2)
  resize := fun _ i => i
  clahe := fun _ _ i => i
  adaptive_thresh := fun _ _ _ i => i

/-- Concrete frame bundle over two frames: frame `false` is a
100 × 35 photo whose single contour rectangle is 100 × 35 wide and
whose region crop is the decodable barcode label; frame `true` is its
90°-clockwise rotation, so its grayscale is the rotated grayscale, its
dimensions are swapped and its single contour rectangle is the rotated
35 × 100 rectangle. -/
def cxVision : Vision CImg Bool Bool where
  parse := fun b => some b
  width := fun f => if f then 35 else 100
  height := fun f => if f then 100 else 35
  gray_full := fun f => (if f then 1 else 0, false)
  contours := fun f =>
    if f then [⟨3500, ⟨0, 0, 35, 100⟩⟩] else [⟨3500, ⟨0, 0, 100, 35⟩⟩]
  gray_crop := fun f _ => if f then ((0 : ZMod 4), false) else ((0 : ZMod 4), true)

theorem first_hit_append (f : α → List β) (l1 l2 : List α) :
    first_hit f (l1 ++ l2) =
      if (first_hit f l1).isEmpty then first_hit f l2 else first_hit f l1 := by
  induction l1 with
  | nil => simp [first_hit]
  | cons v vs ih =>
    show first_hit f (v :: (vs ++ l2)) = _
    simp only [first_hit]
    by_cases h : (f v).isEmpty
    · simp only [h, if_true, ih]
    · simp only [if_neg h]

theorem first_hit_flatMap (f : β → List γ) (h : α → List β) (l : List α) :
    first_hit (fun a => first_hit f (h a)) l = first_hit f (l.flatMap h) := by
  induction l with
  | nil => simp [first_hit]
  | cons a l ih =>
    rw [List.flatMap_cons, first_hit_append]
    by_cases hh : (first_hit f (h a)).isEmpty <;> simp [first_hit, hh, ih]

theorem mem_first_hit {f : α → List β} {l : List α} {r : β}
    (h : r ∈ first_hit f l) : ∃ v ∈ l, r ∈ f v := by
  induction l with
  | nil => simp [first_hit] at h
  | cons v vs ih =>
    simp only [first_hit] at h
    by_cases hv : (f v).isEmpty
    · simp only [hv, if_true] at h
      obtain ⟨w, hw, hr⟩ := ih h
      exact ⟨w, List.mem_cons_of_mem _ hw, hr⟩
    · simp only [hv, if_false] at h
      exact ⟨v, List.mem_cons_self _ _, h⟩

theorem first_hit_eq_nil_iff {f : α → List β} {l : List α} :
    first_hit f l = [] ↔ ∀ v ∈ l, f v = [] := by
  induction l with
  | nil => simp [first_hit]
  | cons v vs ih =>
    by_cases hv : (f v).isEmpty
    · have hv' : f v = [] := List.isEmpty_iff.mp hv
      simp [first_hit, hv, ih, hv']
    · have hv' : f v ≠ [] := by
        intro hc
        exact hv (by simp [hc])
      simp only [first_hit, hv, if_false]
      constructor
      · intro hc
        exact absurd hc hv'
      · intro hall
        exact absurd (hall v (List.mem_cons_self _ _)) hv'

theorem first_hit_eq_first_nonempty (f : α → List β) (l : List α) :
    first_hit f l = first_nonempty (l.map f) := by
  induction l with
  | nil => simp [first_hit, first_nonempty]
  | cons v vs ih =>
    by_cases hv : (f v).isEmpty <;>
      simp [first_hit, first_nonempty, List.find?_cons, hv, ih]

theorem first_hit_count_fst (f : α → List β) (l : List α) :
    (first_hit_count f l).1 = first_hit f l := by
  induction l with
  | nil => simp [first_hit, first_hit_count]
  | cons v vs ih =>
    by_cases hv : (f v).isEmpty <;> simp [first_hit, first_hit_count, hv, ih]

theorem first_hit_count_snd (f : α → List β) (l : List α) :
    (first_hit_count f l).2 =
      min (l.findIdx (fun v => !(f v).isEmpty) + 1) l.length := by
  induction l with
  | nil => simp [first_hit_count]
  | cons v vs ih =>
    by_cases hv : (f v).isEmpty
    · simp [first_hit_count, hv, List.findIdx_cons, ih]
      omega
    · simp [first_hit_count, hv, List.findIdx_cons]

theorem try_decode_eq_flat (cv : CV Img) (g : Img) :
    try_decode_with_rotations cv g =
      first_hit (decode_pyzbar cv) (all_variant_imgs cv g) := by
  unfold try_decode_with_rotations all_variant_imgs
  rw [← first_hit_flatMap]
  congr 1
  funext r
  rw [← first_hit_flatMap]

theorem mem_decode_pyzbar_data {cv : CV Img} {v : Img} {r : BarcodeResult}
    (h : r ∈ decode_pyzbar cv v) : r.data ≠ "" := by
  unfold decode_pyzbar at h
  rw [List.mem_filterMap] at h
  obtain ⟨o, -, ho⟩ := h
  by_cases hs : strip o.data ≠ ""
  · rw [if_pos hs] at ho
    cases ho
    exact hs
  · rw [if_neg hs] at ho
    exact absurd ho (by simp)

theorem mem_try_decode_data {cv : CV Img} {g : Img} {r : BarcodeResult}
    (h : r ∈ try_decode_with_rotations cv g) : r.data ≠ "" := by
  rw [try_decode_eq_flat] at h
  obtain ⟨v, -, hv⟩ := mem_first_hit h
  exact mem_decode_pyzbar_data hv

theorem decode_eq_of_parse {cv : CV Img} {vz : Vision Img Fr B} {b : B} {f : Fr}
    (hp : vz.parse b = some f) :
    decode_barcodes_from_bytes cv vz b =
      if (try_decode_with_rotations cv (vz.gray_full f)).isEmpty then
        .ok (try_rois cv vz f (frame_rois vz f))
      else .ok (try_decode_with_rotations cv (vz.gray_full f)) := by
  unfold decode_barcodes_from_bytes
  rw [hp]

theorem decode_eq_first_hit_attempts {cv : CV Img} {vz : Vision Img Fr B}
    {b : B} {f : Fr} (hp : vz.parse b = some f) :
    decode_barcodes_from_bytes cv vz b =
      .ok (first_hit (decode_pyzbar cv) (pipeline_attempt_imgs cv vz f)) := by
  rw [decode_eq_of_parse hp]
  unfold pipeline_attempt_imgs
  rw [first_hit_append, ← try_decode_eq_flat, ← first_hit_flatMap]
  by_cases hfull : (try_decode_with_rotations cv (vz.gray_full f)).isEmpty
  · rw [if_pos hfull, if_pos hfull]
    unfold try_rois
    simp only [← try_decode_eq_flat]
  · rw [if_neg hfull, if_neg hfull]

theorem roi_mem_bounds {W H : ℤ} {cnts : List Contour}
    (hin : ∀ c ∈ cnts, rect_in_frame W H c.rect) :
    ∀ r ∈ find_barcode_like_rois W H cnts,
      0 ≤ r.x0 ∧ r.x0 < r.x1 ∧ r.x1 ≤ W ∧ 0 ≤ r.y0 ∧ r.y0 < r.y1 ∧ r.y1 ≤ H := by
  intro r hr
  unfold find_barcode_like_rois at hr
  rw [List.mem_map] at hr
  obtain ⟨c, hc, rfl⟩ := hr
  have hsz : ¬(c.rect.w < 80 ∨ c.rect.h < 30) := by
    simpa using List.of_mem_filter hc
  have hcnts : c ∈ cnts :=
    (List.perm_insertionSort area_desc cnts).mem_iff.mp
      (List.mem_of_mem_take (List.mem_of_mem_filter hc))
  have hf := hin c hcnts
  unfold rect_in_frame at hf
  unfold roi_of_rect pad
  dsimp only
  omega

theorem try_rois_checked_eq {cv : CV Img} {vz : Vision Img Fr B} {f : Fr}
    {rs : List Roi}
    (h : ∀ r ∈ rs, gray_crop_checked vz f r = .ok (vz.gray_crop f r)) :
    try_rois_checked cv vz f rs = .ok (try_rois cv vz f rs) := by
  induction rs with
  | nil => rfl
  | cons r rs ih =>
    have hr := h r (List.mem_cons_self _ _)
    unfold try_rois_checked
    rw [hr]
    have ih' := ih fun x hx => h x (List.mem_cons_of_mem _ hx)
    by_cases hres : (try_decode_with_rotations cv (vz.gray_crop f r)).isEmpty <;>
      simp [try_rois, first_hit, hres, ih']

theorem cx_scaled (s : ℚ) (g : CImg) : scaled cxCV s g = g := by
  unfold scaled
  split <;> rfl

theorem cx_inner (r : CImg) :
    first_hit (fun s => first_hit (decode_pyzbar cxCV)
        (contrast_variants cxCV (scaled cxCV s r))) scale_list =
      if (decode_pyzbar cxCV r).isEmpty then [] else decode_pyzbar cxCV r := by
  simp only [cx_scaled]
  have hc : contrast_variants cxCV r = [r, r, r] := rfl
  rw [hc]
  by_cases h : (decode_pyzbar cxCV r).isEmpty
  · simp [first_hit, scale_list, h]
  · simp [first_hit, scale_list, h]

theorem cx_try_decode (g : CImg) :
    try_decode_with_rotations cxCV g =
      first_hit (fun r => if (decode_pyzbar cxCV r).isEmpty then []
        else decode_pyzbar cxCV r) (rotation_imgs cxCV g) := by
  unfold try_decode_with_rotations
  simp only [cx_inner]

theorem cx_full0 : try_decode_with_rotations cxCV ((0 : ZMod 4), false) = [] := by
  rw [cx_try_decode]
  rfl

theorem cx_full1 : try_decode_with_rotations cxCV ((1 : ZMod 4), false) = [] := by
  rw [cx_try_decode]
  rfl

theorem cx_crop : try_decode_with_rotations cxCV ((0 : ZMod 4), true) =
    [⟨"CODE128", "5449000000996", (0, 0, 95, 30)⟩] := by
  rw [cx_try_decode]
  rfl

theorem cx_rois_false : frame_rois cxVision false = [⟨0, 0, 100, 35⟩] := rfl

theorem cx_rois_true : frame_rois cxVision true = [] := rfl

theorem cx_decode_false : decode_barcodes_from_bytes cxCV cxVision false =
    .ok [⟨"CODE128", "5449000000996", (0, 0, 95, 30)⟩] := by
  have hfull : try_decode_with_rotations cxCV (cxVision.gray_full false) = [] :=
    cx_full0
  rw [decode_eq_of_parse (f := false) rfl, hfull, cx_rois_false]
  have hcrop : try_decode_with_rotations cxCV
      (cxVision.gray_crop false ⟨0, 0, 100, 35⟩) =
      [⟨"CODE128", "5449000000996", (0, 0, 95, 30)⟩] := cx_crop
  simp [try_rois, first_hit, hcrop]

theorem cx_decode_true : decode_barcodes_from_bytes cxCV cxVision true = .ok [] := by
  have hfull : try_decode_with_rotations cxCV (cxVision.gray_full true) = [] :=
    cx_full1
  rw [decode_eq_of_parse (f := true) rfl, hfull, cx_rois_true]
  simp [try_rois, first_hit]

/-- C1: for every input that parses as an image,
`decode_barcodes_from_bytes` first runs the variant engine on the
grayscale of the whole normalized frame and returns that result
unchanged when it is non-empty; only when it is empty does it compute
the candidate regions and run the engine on each region crop in the
produced order, returning the first non-empty per-region result; when
the full frame and every region yield nothing, the overall result is
the empty sequence. -/
theorem decode_pipeline_control_flow (cv : CV Img) (vz : Vision Img Fr B)
    (b : B) (f : Fr) (hp : vz.parse b = some f) :
    (try_decode_with_rotations cv (vz.gray_full f) ≠ [] →
      decode_barcodes_from_bytes cv vz b =
        .ok (try_decode_with_rotations cv (vz.gray_full f))) ∧
    (try_decode_with_rotations cv (vz.gray_full f) = [] →
      decode_barcodes_from_bytes cv vz b =
        .ok (first_nonempty (region_results cv vz f))) ∧
    (try_decode_with_rotations cv (vz.gray_full f) = [] →
      (∀ res ∈ region_results cv vz f, res = []) →
      decode_barcodes_from_bytes cv vz b = .ok []) := by
  refine ⟨?_, ?_, ?_⟩
  · intro hne
    rw [decode_eq_of_parse hp, if_neg (by simpa [List.isEmpty_iff] using hne)]
  · intro he
    rw [decode_eq_of_parse hp, if_pos (by simp [he])]
    unfold try_rois region_results
    rw [first_hit_eq_first_nonempty]
  · intro he hall
    rw [decode_eq_of_parse hp, if_pos (by simp [he])]
    unfold try_rois
    have hnil : first_hit
        (fun r => try_decode_with_rotations cv (vz.gray_crop f r))
        (frame_rois vz f) = [] := by
      rw [first_hit_eq_nil_iff]
      intro r hr
      exact hall _ (List.mem_map_of_mem _ hr)
    rw [hnil]

theorem decode_pipeline_control_flow_witness :
    (try_decode_with_rotations cxCV (cxVision.gray_full false) ≠ [] →
      decode_barcodes_from_bytes cxCV cxVision false =
        .ok (try_decode_with_rotations cxCV (cxVision.gray_full false))) ∧
    (try_decode_with_rotations cxCV (cxVision.gray_full false) = [] →
      decode_barcodes_from_bytes cxCV cxVision false =
        .ok (first_nonempty (region_results cxCV cxVision false))) ∧
    (try_decode_with_rotations cxCV (cxVision.gray_full false) = [] →
      (∀ res ∈ region_results cxCV cxVision false, res = []) →
      decode_barcodes_from_bytes cxCV cxVision false = .ok []) :=
  decode_pipeline_control_flow cxCV cxVision false false rfl

/-- C2: the variant engine enumerates exactly the cross-product of the
4 rotations, 4 scales and 3 contrast treatments in nested order
(rotation outer, scale middle, contrast inner) — 48 variant images,
hence at most 48 reader invocations — returning the result of the
first invocation containing a symbol with non-empty stripped payload,
and the empty sequence when all 48 variants are exhausted. -/
theorem variant_engine_cross_product (cv : CV Img) (g : Img) :
    try_decode_with_rotations cv g =
        first_hit (decode_pyzbar cv) (all_variant_imgs cv g) ∧
      (all_variant_imgs cv g).length = 48 ∧
      (first_hit_count (decode_pyzbar cv) (all_variant_imgs cv g)).2 ≤ 48 ∧
      (∀ v, decode_pyzbar cv v = [] ↔ ∀ o ∈ cv.decode v, strip o.data = "") ∧
      ((∀ v ∈ all_variant_imgs cv g, decode_pyzbar cv v = []) →
        try_decode_with_rotations cv g = []) := by
  have hlen : (all_variant_imgs cv g).length = 48 := rfl
  refine ⟨try_decode_eq_flat cv g, hlen, ?_, ?_, ?_⟩
  · rw [first_hit_count_snd, hlen]
    exact min_le_right _ _
  · intro v
    unfold decode_pyzbar
    rw [List.filterMap_eq_nil_iff]
    constructor
    · intro h o ho
      have := h o ho
      by_contra hne
      rw [if_pos hne] at this
      exact absurd this (by simp)
    · intro h o ho
      rw [if_neg (by simpa using h o ho)]
  · intro hall
    rw [try_decode_eq_flat, first_hit_eq_nil_iff]
    exact hall

theorem variant_engine_cross_product_witness :
    try_decode_with_rotations cxCV ((0 : ZMod 4), true) =
        first_hit (decode_pyzbar cxCV) (all_variant_imgs cxCV ((0 : ZMod 4), true)) ∧
      (all_variant_imgs cxCV ((0 : ZMod 4), true)).length = 48 ∧
      (first_hit_count (decode_pyzbar cxCV)
        (all_variant_imgs cxCV ((0 : ZMod 4), true))).2 ≤ 48 ∧
      (∀ v, decode_pyzbar cxCV v = [] ↔ ∀ o ∈ cxCV.decode v, strip o.data = "") ∧
      ((∀ v ∈ all_variant_imgs cxCV ((0 : ZMod 4), true),
          decode_pyzbar cxCV v = []) →
        try_decode_with_rotations cxCV ((0 : ZMod 4), true) = []) :=
  variant_engine_cross_product cxCV ((0 : ZMod 4), true)

/-- C3: for a parseable input, the observable pipeline result equals
the instrumented first-hit traversal of the whole attempt-image
sequence (the 48 full-frame variants, then the 48 variants of each
region in order), and the reader-invocation count of that traversal is
exactly one more than the index of the first hit, capped at the total
length: after the first non-empty reader result no further reader call
is made — no later rotation/scale/contrast combination and no later
region is attempted. -/
theorem reader_calls_stop_after_first_hit (cv : CV Img)
    (vz : Vision Img Fr B) (b : B) (f : Fr) (hp : vz.parse b = some f) :
    decode_barcodes_from_bytes cv vz b =
        .ok (first_hit_count (decode_pyzbar cv)
          (pipeline_attempt_imgs cv vz f)).1 ∧
      (first_hit_count (decode_pyzbar cv) (pipeline_attempt_imgs cv vz f)).2 =
        min ((pipeline_attempt_imgs cv vz f).findIdx
            (fun v => !(decode_pyzbar cv v).isEmpty) + 1)
          (pipeline_attempt_imgs cv vz f).length := by
  refine ⟨?_, first_hit_count_snd _ _⟩
  rw [decode_eq_first_hit_attempts hp, first_hit_count_fst]

theorem reader_calls_stop_after_first_hit_witness :
    decode_barcodes_from_bytes cxCV cxVision false =
        .ok (first_hit_count (decode_pyzbar cxCV)
          (pipeline_attempt_imgs cxCV cxVision false)).1 ∧
      (first_hit_count (decode_pyzbar cxCV)
          (pipeline_attempt_imgs cxCV cxVision false)).2 =
        min ((pipeline_attempt_imgs cxCV cxVision false).findIdx
            (fun v => !(decode_pyzbar cxCV v).isEmpty) + 1)
          (pipeline_attempt_imgs cxCV cxVision false).length :=
  reader_calls_stop_after_first_hit cxCV cxVision false false rfl

/-- C4: the pipeline fails with the parse error (`DecodeError` in the
spec) exactly when the byte buffer does not parse as an image, and on
any parseable image where the reader finds no symbol on any attempted
variant it returns the empty sequence as a normal result, raising
nothing. -/
theorem decode_error_iff_unparseable (cv : CV Img) (vz : Vision Img Fr B)
    (b : B) :
    (decode_barcodes_from_bytes cv vz b = .error .unidentified_image ↔
        vz.parse b = none) ∧
      ∀ f, vz.parse b = some f →
        (∀ v ∈ pipeline_attempt_imgs cv vz f, decode_pyzbar cv v = []) →
        decode_barcodes_from_bytes cv vz b = .ok [] := by
  constructor
  · cases hp : vz.parse b with
    | none => simp [decode_barcodes_from_bytes, hp]
    | some f =>
      rw [decode_eq_of_parse hp]
      by_cases hfull : (try_decode_with_rotations cv (vz.gray_full f)).isEmpty <;>
        simp [hfull]
  · intro f hp hall
    rw [decode_eq_first_hit_attempts hp, first_hit_eq_nil_iff.mpr hall]

theorem decode_error_iff_unparseable_witness :
    (decode_barcodes_from_bytes cxCV cxVision true = .error .unidentified_image ↔
        cxVision.parse true = none) ∧
      ∀ f, cxVision.parse true = some f →
        (∀ v ∈ pipeline_attempt_imgs cxCV cxVision f, decode_pyzbar cxCV v = []) →
        decode_barcodes_from_bytes cxCV cxVision true = .ok [] :=
  decode_error_iff_unparseable cxCV cxVision true

/-- C5: for every frame, the ROI locator returns at most 8 regions;
the returned regions are exactly the pad-and-clamp images of the
retained contours, which are ordered by enclosed source-contour area
descending and each have a bounding rectangle of width at least 80 and
height at least 30 — smaller rectangles are discarded and never reach
the ROI decode loop. -/
theorem roi_locator_output_spec (W H : ℤ) (cnts : List Contour) :
    find_barcode_like_rois W H cnts =
        (retained_contours cnts).map (fun c => roi_of_rect W H c.rect) ∧
      (find_barcode_like_rois W H cnts).length ≤ 8 ∧
      (retained_contours cnts).Pairwise (fun a b => b.area ≤ a.area) ∧
      ∀ c ∈ retained_contours cnts, 80 ≤ c.rect.w ∧ 30 ≤ c.rect.h := by
  refine ⟨rfl, ?_, ?_, ?_⟩
  · unfold find_barcode_like_rois
    rw [List.length_map]
    calc (List.filter _ _).length
        ≤ ((List.insertionSort area_desc cnts).take 8).length :=
          List.length_filter_le _ _
      _ ≤ 8 := by
          rw [List.length_take]
          exact min_le_left _ _
  · have hs : List.Pairwise area_desc (List.insertionSort area_desc cnts) :=
      List.sorted_insertionSort area_desc cnts
    have hsub : (retained_contours cnts).Sublist
        (List.insertionSort area_desc cnts) :=
      (List.filter_sublist _).trans (List.take_sublist _ _)
    exact List.Pairwise.sublist hsub hs
  · intro c hc
    unfold retained_contours at hc
    have := List.of_mem_filter hc
    simp only [decide_eq_true_eq] at this
    omega

theorem roi_locator_output_spec_witness :
    find_barcode_like_rois 100 35 [⟨3500, ⟨0, 0, 100, 35⟩⟩] =
        (retained_contours [⟨3500, ⟨0, 0, 100, 35⟩⟩]).map
          (fun c => roi_of_rect 100 35 c.rect) ∧
      (find_barcode_like_rois 100 35 [⟨3500, ⟨0, 0, 100, 35⟩⟩]).length ≤ 8 ∧
      (retained_contours [⟨3500, ⟨0, 0, 100, 35⟩⟩]).Pairwise
        (fun a b => b.area ≤ a.area) ∧
      ∀ c ∈ retained_contours [⟨3500, ⟨0, 0, 100, 35⟩⟩],
        80 ≤ c.rect.w ∧ 30 ≤ c.rect.h :=
  roi_locator_output_spec 100 35 [⟨3500, ⟨0, 0, 100, 35⟩⟩]

/-- C6: every symbol in a successful pipeline result has non-empty
payload text — reader symbols whose stripped payload is blank are
dropped and never appear in the output. -/
theorem payload_text_nonempty (cv : CV Img) (vz : Vision Img Fr B) (b : B)
    (res : List BarcodeResult)
    (h : decode_barcodes_from_bytes cv vz b = .ok res) :
    ∀ r ∈ res, r.data ≠ "" := by
  intro r hr
  cases hp : vz.parse b with
  | none =>
    unfold decode_barcodes_from_bytes at h
    rw [hp] at h
    simp at h
  | some f =>
    rw [decode_eq_of_parse hp] at h
    by_cases hfull : (try_decode_with_rotations cv (vz.gray_full f)).isEmpty
    · rw [if_pos hfull] at h
      have hres := Except.ok.inj h
      subst hres
      obtain ⟨roi, -, hroi⟩ := mem_first_hit hr
      exact mem_try_decode_data hroi
    · rw [if_neg hfull] at h
      have hres := Except.ok.inj h
      subst hres
      exact mem_try_decode_data hr

theorem payload_text_nonempty_witness :
    (⟨"CODE128", "5449000000996", (0, 0, 95, 30)⟩ : BarcodeResult).data ≠ "" :=
  payload_text_nonempty cxCV cxVision false
    [⟨"CODE128", "5449000000996", (0, 0, 95, 30)⟩] cx_decode_false
    ⟨"CODE128", "5449000000996", (0, 0, 95, 30)⟩ (by simp)

/-- C7: provided every contour bounding rectangle lies inside the
frame (as `cv2.boundingRect` of a contour of that frame guarantees),
no transform stage of the pipeline can fail: in the model where a
degenerate zero-width or zero-height region crop raises and
propagates like an uncaught exception, the pipeline still never
aborts and returns the same ok result as the plain pipeline, so a
variant or region can only contribute nothing — a partial failure
cannot bring the whole pipeline down. -/
theorem transform_failure_never_aborts (cv : CV Img) (vz : Vision Img Fr B)
    (b : B) (f : Fr) (hp : vz.parse b = some f)
    (hin : contours_in_frame vz f) :
    ∃ l, decode_barcodes_checked cv vz b = .ok l ∧
      decode_barcodes_from_bytes cv vz b = .ok l := by
  have hok : ∀ r ∈ frame_rois vz f,
      gray_crop_checked vz f r = .ok (vz.gray_crop f r) := by
    intro r hr
    have hb := roi_mem_bounds hin r hr
    unfold gray_crop_checked
    rw [if_pos ⟨hb.2.1, hb.2.2.2.2.1⟩]
  have hchecked : decode_barcodes_checked cv vz b =
      if (try_decode_with_rotations cv (vz.gray_full f)).isEmpty then
        try_rois_checked cv vz f (frame_rois vz f)
      else .ok (try_decode_with_rotations cv (vz.gray_full f)) := by
    unfold decode_barcodes_checked
    rw [hp]
  by_cases hfull : (try_decode_with_rotations cv (vz.gray_full f)).isEmpty
  · refine ⟨try_rois cv vz f (frame_rois vz f), ?_, ?_⟩
    · rw [hchecked, if_pos hfull, try_rois_checked_eq hok]
    · rw [decode_eq_of_parse hp, if_pos hfull]
  · exact ⟨_, by rw [hchecked, if_neg hfull],
      by rw [decode_eq_of_parse hp, if_neg hfull]⟩

theorem transform_failure_never_aborts_witness :
    ∃ l, decode_barcodes_checked cxCV cxVision false = .ok l ∧
      decode_barcodes_from_bytes cxCV cxVision false = .ok l :=
  transform_failure_never_aborts cxCV cxVision false false rfl (by decide)

/-- C10: provided every contour bounding rectangle lies within the
frame, every region the ROI locator produces satisfies
`0 ≤ x0 < x1 ≤ width` and `0 ≤ y0 < y1 ≤ height`, so every ROI crop
taken in the decode loop is non-empty and the degenerate-crop failure
branch is unreachable. -/
theorem roi_bounds_safe (vz : Vision Img Fr B) (f : Fr)
    (hin : contours_in_frame vz f) :
    ∀ r ∈ frame_rois vz f,
      (0 ≤ r.x0 ∧ r.x0 < r.x1 ∧ r.x1 ≤ vz.width f ∧
        0 ≤ r.y0 ∧ r.y0 < r.y1 ∧ r.y1 ≤ vz.height f) ∧
      gray_crop_checked vz f r = .ok (vz.gray_crop f r) := by
  intro r hr
  have hb := roi_mem_bounds hin r hr
  refine ⟨hb, ?_⟩
  unfold gray_crop_checked
  rw [if_pos ⟨hb.2.1, hb.2.2.2.2.1⟩]

theorem roi_bounds_safe_witness :
    (0 ≤ (⟨0, 0, 100, 35⟩ : Roi).x0 ∧
      (⟨0, 0, 100, 35⟩ : Roi).x0 < (⟨0, 0, 100, 35⟩ : Roi).x1 ∧
      (⟨0, 0, 100, 35⟩ : Roi).x1 ≤ cxVision.width false ∧
      0 ≤ (⟨0, 0, 100, 35⟩ : Roi).y0 ∧
      (⟨0, 0, 100, 35⟩ : Roi).y0 < (⟨0, 0, 100, 35⟩ : Roi).y1 ∧
      (⟨0, 0, 100, 35⟩ : Roi).y1 ≤ cxVision.height false) ∧
    gray_crop_checked cxVision false ⟨0, 0, 100, 35⟩ =
      .ok (cxVision.gray_crop false ⟨0, 0, 100, 35⟩) :=
  roi_bounds_safe cxVision false (by decide) ⟨0, 0, 100, 35⟩
    (by rw [cx_rois_false]; simp)

/-- C8: the pipeline is deterministic — there is no randomness
anywhere: its result is a function of the input bytes and of the
behaviour of the external primitives only, so two invocations on the
same bytes with pointwise-equal primitive behaviour (in particular
the same underlying symbol reader) return the same sequence. -/
theorem pipeline_deterministic (cv1 cv2 : CV Img) (vz1 vz2 : Vision Img Fr B)
    (b : B)
    (hdec : ∀ i, cv1.decode i = cv2.decode i)
    (h90 : ∀ i, cv1.rotate_90_clockwise i = cv2.rotate_90_clockwise i)
    (h180 : ∀ i, cv1.rotate_180 i = cv2.rotate_180 i)
    (h270 : ∀ i, cv1.rotate_90_counterclockwise i =
      cv2.rotate_90_counterclockwise i)
    (hres : ∀ s i, cv1.resize s i = cv2.resize s i)
    (hcl : ∀ q t i, cv1.clahe q t i = cv2.clahe q t i)
    (hth : ∀ m bs c i, cv1.adaptive_thresh m bs c i = cv2.adaptive_thresh m bs c i)
    (hparse : ∀ x, vz1.parse x = vz2.parse x)
    (hwidth : ∀ f, vz1.width f = vz2.width f)
    (hheight : ∀ f, vz1.height f = vz2.height f)
    (hgray : ∀ f, vz1.gray_full f = vz2.gray_full f)
    (hcont : ∀ f, vz1.contours f = vz2.contours f)
    (hcrop : ∀ f r, vz1.gray_crop f r = vz2.gray_crop f r) :
    decode_barcodes_from_bytes cv1 vz1 b =
      decode_barcodes_from_bytes cv2 vz2 b := by
  have hcv : cv1 = cv2 := by
    cases cv1
    cases cv2
    simp only [CV.mk.injEq]
    exact ⟨funext hdec, funext h90, funext h180, funext h270,
      funext fun s => funext (hres s),
      funext fun q => funext fun t => funext (hcl q t),
      funext fun m => funext fun bs => funext fun c => funext (hth m bs c)⟩
  have hvz : vz1 = vz2 := by
    cases vz1
    cases vz2
    simp only [Vision.mk.injEq]
    exact ⟨funext hparse, funext hwidth, funext hheight, funext hgray,
      funext hcont, funext fun f => funext (hcrop f)⟩
  rw [hcv, hvz]

theorem pipeline_deterministic_witness :
    decode_barcodes_from_bytes cxCV cxVision false =
      decode_barcodes_from_bytes cxCV cxVision false :=
  pipeline_deterministic cxCV cxCV cxVision cxVision false
    (fun _ => rfl) (fun _ => rfl) (fun _ => rfl) (fun _ => rfl)
    (fun _ _ => rfl) (fun _ _ _ => rfl) (fun _ _ _ _ => rfl)
    (fun _ => rfl) (fun _ => rfl) (fun _ => rfl) (fun _ => rfl)
    (fun _ => rfl) (fun _ _ => rfl)

theorem all_variant_rot90_mem (cv : CV Img) (g v : Img)
    (h2 : ∀ i, cv.rotate_180 i =
      cv.rotate_90_clockwise (cv.rotate_90_clockwise i))
    (h3 : ∀ i, cv.rotate_90_counterclockwise i =
      cv.rotate_90_clockwise (cv.rotate_180 i))
    (h4 : ∀ i, cv.rotate_90_clockwise (cv.rotate_90_counterclockwise i) = i) :
    v ∈ all_variant_imgs cv (cv.rotate_90_clockwise g) ↔
      v ∈ all_variant_imgs cv g := by
  have e2 : cv.rotate_90_clockwise (cv.rotate_90_clockwise g) =
      cv.rotate_180 g := (h2 g).symm
  have e3 : cv.rotate_180 (cv.rotate_90_clockwise g) =
      cv.rotate_90_counterclockwise g := by
    rw [h2 (cv.rotate_90_clockwise g), e2, ← h3 g]
  have e4 : cv.rotate_90_counterclockwise (cv.rotate_90_clockwise g) = g := by
    rw [h3 (cv.rotate_90_clockwise g), e3, h4 g]
  unfold all_variant_imgs rotation_imgs
  rw [e2, e3, e4]
  simp only [List.flatMap_cons, List.flatMap_nil, List.append_nil,
    List.mem_append]
  tauto

/-- C9 (amended): the 48-image variant set of the engine is invariant
under the rotation group: when the rotation primitives satisfy the
90°-rotation group laws, an image on which the variant engine
succeeds keeps succeeding after a 90°, 180° or 270° clockwise
rotation, because every variant image of the rotated input is a
variant image of the original input.  Rotation invariance therefore
holds for images decoded through the full-frame path; it does not
extend to the ROI path (see the counterexample), whose locator and
minimum-size filter are orientation-sensitive. -/
theorem variant_engine_rotation_invariant (cv : CV Img) (g : Img)
    (h2 : ∀ i, cv.rotate_180 i =
      cv.rotate_90_clockwise (cv.rotate_90_clockwise i))
    (h3 : ∀ i, cv.rotate_90_counterclockwise i =
      cv.rotate_90_clockwise (cv.rotate_180 i))
    (h4 : ∀ i, cv.rotate_90_clockwise (cv.rotate_90_counterclockwise i) = i)
    (hne : try_decode_with_rotations cv g ≠ []) :
    try_decode_with_rotations cv (cv.rotate_90_clockwise g) ≠ [] ∧
      try_decode_with_rotations cv (cv.rotate_180 g) ≠ [] ∧
      try_decode_with_rotations cv (cv.rotate_90_counterclockwise g) ≠ [] := by
  have step : ∀ x : Img, try_decode_with_rotations cv x ≠ [] →
      try_decode_with_rotations cv (cv.rotate_90_clockwise x) ≠ [] := by
    intro x hx
    rw [try_decode_eq_flat] at hx ⊢
    intro hc
    apply hx
    rw [first_hit_eq_nil_iff] at hc ⊢
    intro v hv
    exact hc v ((all_variant_rot90_mem cv x v h2 h3 h4).mpr hv)
  have p1 := step g hne
  have p2 : try_decode_with_rotations cv (cv.rotate_180 g) ≠ [] := by
    rw [h2 g]
    exact step _ p1
  have p3 : try_decode_with_rotations cv (cv.rotate_90_counterclockwise g) ≠ [] := by
    rw [h3 g]
    exact step _ p2
  exact ⟨p1, p2, p3⟩

theorem variant_engine_rotation_invariant_witness :
    try_decode_with_rotations cxCV
        (cxCV.rotate_90_clockwise ((0 : ZMod 4), true)) ≠ [] ∧
      try_decode_with_rotations cxCV
        (cxCV.rotate_180 ((0 : ZMod 4), true)) ≠ [] ∧
      try_decode_with_rotations cxCV
        (cxCV.rotate_90_counterclockwise ((0 : ZMod 4), true)) ≠ [] :=
  variant_engine_rotation_invariant cxCV ((0 : ZMod 4), true)
    (by decide) (by decide) (by decide)
    (by rw [cx_crop]; simp)

/-- C9 (counterexample): an instantiation of the opaque primitives
satisfying the rotation group laws, with frame `true` the
90°-clockwise rotation of frame `false` (rotated grayscale, swapped
dimensions, rotated contour bounding rectangle): the pipeline decodes
frame `false` through its candidate region, but on the rotated frame
the rotated 35 × 100 bounding rectangle fails the `w < 80` minimum
size filter, no candidate region is produced, and the pipeline
returns the empty sequence — refuting pipeline-level rotation
invariance as claimed. -/
theorem rotation_invariance_counterexample :
    (∀ i : CImg, cxCV.rotate_180 i =
        cxCV.rotate_90_clockwise (cxCV.rotate_90_clockwise i)) ∧
      (∀ i : CImg, cxCV.rotate_90_counterclockwise i =
        cxCV.rotate_90_clockwise (cxCV.rotate_180 i)) ∧
      (∀ i : CImg,
        cxCV.rotate_90_clockwise (cxCV.rotate_90_counterclockwise i) = i) ∧
      cxVision.parse false = some false ∧
      cxVision.parse true = some true ∧
      cxVision.gray_full true =
        cxCV.rotate_90_clockwise (cxVision.gray_full false) ∧
      cxVision.width true = cxVision.height false ∧
      cxVision.height true = cxVision.width false ∧
      cxVision.contours false = [⟨3500, ⟨0, 0, 100, 35⟩⟩] ∧
      cxVision.contours true = [⟨3500, ⟨0, 0, 35, 100⟩⟩] ∧
      decode_barcodes_from_bytes cxCV cxVision false =
        .ok [⟨"CODE128", "5449000000996", (0, 0, 95, 30)⟩] ∧
      decode_barcodes_from_bytes cxCV cxVision true = .ok [] :=
  ⟨by decide, by decide, by decide, rfl, rfl, by decide, by decide, by decide,
    rfl, rfl, cx_decode_false, cx_decode_true⟩

end BarcodeScanner
